import Mathlib

/-!
Verification of the MCP-Telegram-Bot core: a shallow embedding of the
stdio JSON-RPC protocol client (`src/mcp_client/client.py`), the tool
manager (`src/bot/tool_manager.py`) and the tool-orchestration loop
(`src/bot/llm_utils.py`), with theorems settling the frozen claims.

Python JSON values are modelled by the mutual inductives `Json`,
`JsonList` (a decoded JSON array) and `JsonObj` (a decoded JSON object,
an insertion-ordered association list exactly like a Python dict).
A Python function that may raise is modelled with `Except String`; the
resolution of an `asyncio.Future` is the inductive `FutureVal`.
-/

mutual

/-- A decoded JSON value, as produced by `json.loads` in the source. -/
inductive Json where
  | null : Json
  | bool (b : Bool) : Json
  | num (n : Int) : Json
  | str (s : String) : Json
  | arr (xs : JsonList) : Json
  | obj (kvs : JsonObj) : Json
deriving DecidableEq

/-- A decoded JSON array (a Python list of decoded values). -/
inductive JsonList where
  | nil : JsonList
  | cons (x : Json) (xs : JsonList) : JsonList
deriving DecidableEq

/-- A decoded JSON object (a Python dict of decoded values, in insertion
order). -/
inductive JsonObj where
  | nil : JsonObj
  | cons (k : String) (v : Json) (kvs : JsonObj) : JsonObj
deriving DecidableEq

end

/-- `d.get(k)` / `d[k]` on a Python dict (keys of a decoded JSON object
are unique, so first match wins). -/
def JsonObj.lookup (kvs : JsonObj) (k : String) : Option Json :=
  match kvs with
  | .nil => none
  | .cons k' v rest => if k' = k then some v else rest.lookup k

/-- `k in d` on a Python dict. -/
def JsonObj.hasKey (kvs : JsonObj) (k : String) : Bool :=
  (kvs.lookup k).isSome

/-- `d[k] = v` on a Python dict: replace the binding in place if the key
exists (Python preserves insertion order), otherwise append it. -/
def JsonObj.set (kvs : JsonObj) (k : String) (v : Json) : JsonObj :=
  match kvs with
  | .nil => .cons k v .nil
  | .cons k' v' rest =>
      if k' = k then .cons k' v rest else .cons k' v' (rest.set k v)

/-- `d.pop(k)` on a Python dict: drop the first binding of `k`. -/
def JsonObj.remove (kvs : JsonObj) (k : String) : JsonObj :=
  match kvs with
  | .nil => .nil
  | .cons k' v' rest =>
      if k' = k then rest else .cons k' v' (rest.remove k)

/-- `j` is a dict carrying key `k` (used to state the error-shape claims). -/
def Json.hasKey (j : Json) (k : String) : Bool :=
  match j with
  | .obj kvs => kvs.hasKey k
  | _ => false

/-- The underlying Lean list of a decoded JSON array. -/
def JsonList.toList (xs : JsonList) : List Json :=
  match xs with
  | .nil => []
  | .cons x rest => x :: rest.toList

mutual

/-- Python `repr` of a decoded-JSON value. -/
def pyRepr : Json → String
  | .null => "None"
  | .bool b => if b then "True" else "False"
  | .num n => toString n
  | .str s => "'" ++ s ++ "'"
  | .arr xs => "[" ++ String.intercalate ", " (pyReprList xs) ++ "]"
  | .obj kvs => "\x7b" ++ String.intercalate ", " (pyReprPairs kvs) ++ "\x7d"

def pyReprList : JsonList → List String
  | .nil => []
  | .cons x xs => pyRepr x :: pyReprList xs

def pyReprPairs : JsonObj → List String
  | .nil => []
  | .cons k v kvs => ("'" ++ k ++ "': " ++ pyRepr v) :: pyReprPairs kvs

end

/-- Python `str` of a decoded-JSON value (`str` on a string is the string
itself, on containers it coincides with `repr`). -/
def pyStr : Json → String
  | .str s => s
  | v => pyRepr v

mutual

/-- `json.dumps(v, ensure_ascii=False)` with the default separators. -/
def jsonDumps : Json → String
  | .null => "null"
  | .bool b => if b then "true" else "false"
  | .num n => toString n
  | .str s => "\"" ++ s ++ "\""
  | .arr xs => "[" ++ String.intercalate ", " (jsonDumpsList xs) ++ "]"
  | .obj kvs => "\x7b" ++ String.intercalate ", " (jsonDumpsPairs kvs) ++ "\x7d"

def jsonDumpsList : JsonList → List String
  | .nil => []
  | .cons x xs => jsonDumps x :: jsonDumpsList xs

def jsonDumpsPairs : JsonObj → List String
  | .nil => []
  | .cons k v kvs => ("\"" ++ k ++ "\": " ++ jsonDumps v) :: jsonDumpsPairs kvs

end

/-!
## Stdio protocol client: request correlation

Embeds `StdioMCPClient` (`src/mcp_client/client.py`).  The pending-request
map `self._pending_requests` is the list of ids whose futures are still
unset; the single-assignment futures completed by the reader are recorded
in `resolved`, keyed by request id.  `processResponse` embeds the body of
`_read_responses` for one parsed JSON-RPC response line (lines 186-196);
`waitPhase` embeds the `asyncio.wait_for` / `except TimeoutError` tail of
`_send_request` (lines 283-288).
-/

/-- One parsed JSON-RPC response line.  `_read_responses` compares
`response["id"]` with the integer keys of `_pending_requests`; a
non-integer id never matches an integer key, so ids are modelled as
`Option Nat`. -/
structure RpcResponse where
  id? : Option Nat
  result? : Option Json
  error? : Option Json
deriving DecidableEq

/-- How a pending future was completed by the reader: `set_result` with
the `result` member, or `set_exception(Exception(str(error)))`. -/
inductive FutureVal where
  | ok (v : Json) : FutureVal
  | exn (e : String) : FutureVal
deriving DecidableEq

/-- The correlation state of one `StdioMCPClient`. -/
structure StdioState where
  nextId : Nat
  pending : List Nat
  resolved : List (Nat × FutureVal)
deriving DecidableEq

/-- How the reader completes the future for a response: `result` wins
over `error` (`if "result" in response: ... elif "error" in response`);
a response with neither leaves the popped future unset. -/
def respOutcome (r : RpcResponse) : Option FutureVal :=
  match r.result? with
  | some v => some (.ok v)
  | none =>
    match r.error? with
    | some e => some (.exn (pyStr e))
    | none => none

/-- `_read_responses`, lines 186-196: if the response id matches a
pending request, pop that future and complete it; otherwise the line is
logged as a notification or unknown response and discarded. -/
def processResponse (st : StdioState) (r : RpcResponse) : StdioState :=
  match r.id? with
  | some i =>
      if i ∈ st.pending then
        match respOutcome r with
        | some fv =>
            { st with pending := st.pending.erase i,
                      resolved := (i, fv) :: st.resolved }
        | none => { st with pending := st.pending.erase i }
      else st
  | none => st

/-- The reader processing a whole sequence of arriving response lines. -/
def processAll (st : StdioState) (rs : List RpcResponse) : StdioState :=
  rs.foldl processResponse st

/-- The registration half of `_send_request` (lines 261-281, under the
lock): allocate `request_id = self._next_id`, increment the counter,
store a fresh future in the pending map. -/
def sendRegister (st : StdioState) : StdioState × Nat :=
  ({ st with nextId := st.nextId + 1, pending := st.pending ++ [st.nextId] },
   st.nextId)

/-- The wait half of `_send_request` (lines 283-288).  `resolution` is
the state of the future when the 30-second `asyncio.wait_for` elapses:
`some fv` if the reader completed it in time, `none` on timeout.  On
timeout the code pops the pending entry (`pop(request_id, None)`) and
raises `TimeoutError`; an awaited exception-completed future re-raises
its exception. -/
def waitPhase (st : StdioState) (method : String) (i : Nat)
    (resolution : Option FutureVal) : StdioState × Except String Json :=
  match resolution with
  | some (.ok v) => (st, .ok v)
  | some (.exn e) => (st, .error e)
  | none =>
      ({ st with pending := st.pending.erase i },
       .error ("Request " ++ method ++ " timed out after 30 seconds"))

/-!
## Stdio protocol client: readiness polling and public operations

`wait_until_ready` (lines 290-311) loops while the elapsed time is below
`timeout`, each iteration attempting `_initialize_connection()` followed
by a trial `list_tools()` and sleeping one second on failure.  Each
attempt is abstracted by a `ReadyAttempt` oracle: whether the
`initialize` handshake round trip would succeed, and whether the trial
`tools/list` request would succeed.  Crucially, `list_tools`
(lines 324-335) wraps its whole body in `try/except Exception` and
returns `[]` on any failure, so only a handshake failure can raise
inside the polling loop.
-/

/-- The environment's behaviour for the attempt started at a given
elapsed second. -/
structure ReadyAttempt where
  handshakeOk : Bool
  catalogOk : Bool
deriving DecidableEq

/-- `_initialize_connection` (lines 209-242): a no-op once
`self._initialized` is set, otherwise it performs the `initialize`
round trip and re-raises any failure.  Returns the new `_initialized`
flag, or an error. -/
def initializeConnection (initialized : Bool) (a : ReadyAttempt) :
    Except String Bool :=
  if initialized then .ok true
  else if a.handshakeOk then .ok true
  else .error "Failed to initialize MCP connection"

/-- The `tools/list` member of the `initialize`d client's response to a
trial call, as seen by `list_tools` before its `except`: an exception
when the request fails. -/
def trialCatalog (a : ReadyAttempt) : Except String Json :=
  if a.catalogOk then .ok (Json.obj (.cons "tools" (Json.arr .nil) .nil))
  else .error "Request tools/list timed out after 30 seconds"

/-- `list_tools` (lines 324-335) as invoked with `_initialized = true`:
the `try` body returns `response.get("tools", [])`, and the
`except Exception` arm converts any failure into `[]`.  It never
raises. -/
def listToolsTrial (a : ReadyAttempt) : List Json :=
  match trialCatalog a with
  | .ok (Json.obj kvs) =>
      match kvs.lookup "tools" with
      | some (Json.arr xs) => xs.toList
      | some _ => []
      | none => []
  | .ok _ => []
  | .error _ => []

/-- One iteration of the `wait_until_ready` loop body: run
`_initialize_connection`, then the trial `list_tools` (which cannot
raise); return the new `_initialized` flag and whether this attempt
returned `True`. -/
def readyAttemptStep (initialized : Bool) (a : ReadyAttempt) : Bool × Bool :=
  match initializeConnection initialized a with
  | .ok init' =>
      let _ := listToolsTrial a
      (init', true)
  | .error _ => (initialized, false)

/-- `wait_until_ready` (lines 290-311): attempts start at elapsed
seconds `0, 1, 2, …` (each failed attempt sleeps one second); the loop
re-checks `elapsed < timeout` before each attempt and returns `False`
once the deadline has passed.  The remaining budget `timeout - elapsed`
is carried as the structural recursion argument: the loop guard
`elapsed < timeout` is exactly `0 < budget`. -/
def waitUntilReadyGo (attempts : Nat → ReadyAttempt) (initialized : Bool)
    (elapsed : Nat) : Nat → Bool
  | 0 => false
  | budget + 1 =>
      match readyAttemptStep initialized (attempts elapsed) with
      | (_, true) => true
      | (init', false) =>
          waitUntilReadyGo attempts init' (elapsed + 1) budget

/-- `wait_until_ready(timeout)` on a freshly constructed client
(`_initialized = False`). -/
def waitUntilReady (attempts : Nat → ReadyAttempt) (timeout : Nat) : Bool :=
  waitUntilReadyGo attempts false 0 timeout

/-- The readiness predicate in the claim's words: some attempt before
the deadline has both the handshake and the trial catalog call
succeed. -/
def specReadyBothSucceed (attempts : Nat → ReadyAttempt) (timeout : Nat) :
    Prop :=
  ∃ k < timeout, (attempts k).handshakeOk ∧ (attempts k).catalogOk

/-!
## Stdio protocol client: public operations (`list_tools`,
`list_resources`, `execute_tool`, `access_resource`)

Each method (lines 324-380) wraps its body in `try/except Exception`.
The body's interaction with `_initialize_connection` and
`_send_request` is abstracted by an `outcome : Except String Json`: the
`result` member delivered for the request, or the exception raised
(handshake failure, `TimeoutError`, transport failure, or the
re-raised JSON-RPC `error` of the response).  `response.get(k, [])`
raises `AttributeError` inside the `try` when the result member is not
a dict; that too is caught.
-/

/-- `response.get(key, [])` for a decoded value: `none` models the
`AttributeError` raised when `response` is not a dict. -/
def pyGetList (resp : Json) (key : String) : Option Json :=
  match resp with
  | .obj kvs => some ((kvs.lookup key).getD (Json.arr .nil))
  | _ => none

/-- The `try` body of `list_tools` (lines 326-332). -/
def listToolsBody (outcome : Except String Json) : Except String Json := do
  let resp ← outcome
  match pyGetList resp "tools" with
  | some v => pure v
  | none => throw "AttributeError"

/-- `StdioMCPClient.list_tools` (lines 324-335): any exception is caught
and `[]` is returned. -/
def listToolsRun (outcome : Except String Json) : Json :=
  match listToolsBody outcome with
  | .ok v => v
  | .error _ => Json.arr .nil

/-- The `try` body of `list_resources` (lines 339-345). -/
def listResourcesBody (outcome : Except String Json) : Except String Json := do
  let resp ← outcome
  match pyGetList resp "resources" with
  | some v => pure v
  | none => throw "AttributeError"

/-- `StdioMCPClient.list_resources` (lines 337-348). -/
def listResourcesRun (outcome : Except String Json) : Json :=
  match listResourcesBody outcome with
  | .ok v => v
  | .error _ => Json.arr .nil

/-- `StdioMCPClient.execute_tool` (lines 350-367): the response payload
is returned as is; any exception becomes `{"error": str(e)}`. -/
def executeToolRun (outcome : Except String Json) : Json :=
  match outcome with
  | .ok resp => resp
  | .error e => Json.obj (.cons "error" (Json.str e) .nil)

/-- `StdioMCPClient.access_resource` (lines 369-380): same shape as
`execute_tool`. -/
def accessResourceRun (outcome : Except String Json) : Json :=
  match outcome with
  | .ok resp => resp
  | .error e => Json.obj (.cons "error" (Json.str e) .nil)

/-!
## Stdio protocol client: shutdown (`close`, lines 382-418)

`close` cancels the reader task (swallowing `CancelledError`), closes
the process's stdin, waits up to 3 seconds for the process to exit,
escalates to `kill()` with a further 2-second wait, and merely logs a
warning if the process survives the kill.  An unexpected exception while
closing stdin or waiting routes to a fallback `kill()` with a 1-second
wait whose own failures are swallowed by a bare `except`.  The process
environment is abstracted by a `CloseBehavior` oracle; `closeRun`
returns the post-call client state and an upper bound, in seconds, on
the time spent in process waits (each `asyncio.wait_for(…, timeout=t)`
returns after at most `t` seconds).  `closeRun` is a total function:
every path returns, so `close` never raises.
-/

/-- How the child process reacts during `close`. -/
structure CloseBehavior where
  cleanupRaises : Bool
  exitsWithinGrace : Bool
  exitsWithinKillWait : Bool
  exitsWithinFinalWait : Bool
deriving DecidableEq

/-- The client state that `close` reads and writes. -/
structure CloseState where
  readerCancelled : Bool
  stdinClosed : Bool
  procExited : Bool
  killed : Bool
deriving DecidableEq

/-- `StdioMCPClient.close` (lines 382-418), returning the new state and
an upper bound on seconds spent waiting. -/
def closeRun (c : CloseState) (b : CloseBehavior) : CloseState × Nat :=
  let c1 := { c with readerCancelled := true }
  if c1.procExited then
    ({ c1 with stdinClosed := true }, 0)
  else if b.cleanupRaises then
    ({ c1 with killed := true, procExited := b.exitsWithinFinalWait }, 1)
  else
    let c2 := { c1 with stdinClosed := true }
    if b.exitsWithinGrace then
      ({ c2 with procExited := true }, 3)
    else
      let c3 := { c2 with killed := true }
      if b.exitsWithinKillWait then
        ({ c3 with procExited := true }, 3 + 2)
      else (c3, 3 + 2)

/-!
## Tool manager (`src/bot/tool_manager.py`)

A registered provider is abstracted by its name together with its
observable behaviour: the decoded list returned by its client's
`list_tools()` (already `[]` on failure, see `listToolsRun`), and its
client's `execute_tool`, a total function into `Json` — for the stdio
client every transport, protocol or provider-reported error surfaces as
a returned `{"error": …}` dict, never as an exception
(`executeToolRun`).
-/

/-- `llm.shared_types.ToolInfo`.  `server_name` is always a Python
string in the source; the remaining fields are filled from decoded JSON
with `dict.get` defaults and the raw value is kept even when it is not a
string (Python dataclasses do not enforce the annotations), so they are
modelled as `Json`. -/
structure ToolInfo where
  server_name : String
  tool_name : Json
  description : Json
  input_schema : Json
deriving DecidableEq

/-- A registered client as observed by the tool manager. -/
structure ClientModel where
  toolsData : List JsonObj
  execute : String → JsonObj → Json

/-- `ToolManager._get_meta_tool_info` (lines 58-65). -/
def metaToolInfo : ToolInfo :=
  { server_name := "meta"
    tool_name := Json.str "list_mcp_tools"
    description := Json.str "Перечисляет все доступные инструменты MCP."
    input_schema := Json.obj .nil }

/-- The `ToolInfo` built by `_fetch_server_tools` (lines 91-99) from one
raw tool dict: `tool.get("name", "unknown")`,
`tool.get("description", "")`, `tool.get("input_schema", {})`.  In the
source `tool` is always a dict (an element of a decoded JSON array
produced by `tools/list`); a non-dict element would raise and make the
whole server contribute `[]`, which the `toolsData` abstraction already
covers, so only dict elements are modelled. -/
def fetchOneTool (server_name : String) (tool : JsonObj) : ToolInfo :=
  { server_name := server_name
    tool_name := (tool.lookup "name").getD (Json.str "unknown")
    description := (tool.lookup "description").getD (Json.str "")
    input_schema := (tool.lookup "input_schema").getD (Json.obj .nil) }

/-- `_fetch_server_tools` (lines 83-104) for one registered server. -/
def fetchServerTools (server_name : String) (toolsData : List JsonObj) :
    List ToolInfo :=
  toolsData.map (fetchOneTool server_name)

/-- `get_available_mcp_tools` (lines 67-81): the meta tool first, then
every server's tools in registration order (`asyncio.gather` preserves
order). -/
def getAvailableMcpTools (providers : List (String × List JsonObj)) :
    List ToolInfo :=
  metaToolInfo :: providers.flatMap (fun p => fetchServerTools p.1 p.2)

/-- The membership test of the meta-tool filter in `execute_mcp_tool`
(lines 118-121): `tool.server_name == "meta" and
tool.tool_name == "list_mcp_tools"`. -/
def isMetaKey (tool : ToolInfo) : Bool :=
  tool.server_name = "meta" && tool.tool_name = Json.str "list_mcp_tools"

/-- The filtered listing built by the meta tool: every aggregated tool
whose key is not `("meta", "list_mcp_tools")`. -/
def metaFilteredTools (providers : List (String × List JsonObj)) :
    List ToolInfo :=
  (getAvailableMcpTools providers).filter (fun tool => !isMetaKey tool)

/-!
## Tool manager: `execute_mcp_tool` (lines 106-183)

The non-meta path: look up the client (raising `ValueError` when the
server is not registered — modelled by `Except.error`), apply the
`brave_web_search` argument fixup, call the client's `execute_tool`
(total for the stdio client, see above) and normalize the raw result.
The meta path is settled separately through `metaFilteredTools`.
`arguments` is modelled as already being a dict; the non-dict coercion
branch (lines 136-146) is not involved in any claim.
-/

/-- The argument fixup for `brave_web_search` (lines 149-158): rename a
`q` key to `query` when `query` is absent (`arguments['query'] =
arguments.pop('q')`, the popped value re-inserted at the end), then
require `query`.  `none` models the early `return {"error": "Missing
required 'query' parameter"}`. -/
def braveFixup (arguments : JsonObj) : Option JsonObj :=
  let fixed :=
    match arguments.lookup "q" with
    | some qv =>
        if arguments.hasKey "query" then arguments
        else (arguments.remove "q").set "query" qv
    | none => arguments
  if fixed.hasKey "query" then some fixed else none

/-- The Python string of the `"Missing required 'query' parameter"`
early return. -/
def missingQueryError : Json :=
  Json.obj (.cons "error" (Json.str "Missing required 'query' parameter") .nil)

/-- Result normalization (lines 163-183), verbatim from the source: a
dict with a `content` member is unwrapped (non-empty list → the first
element's `text` member, or `str` of the first element; string → that
string; anything else → its `str`); otherwise a dict with a `result`
member is returned unchanged; any other value is wrapped as
`{"result": value}`. -/
def normalizeResult (result : Json) : Json :=
  match result with
  | .obj kvs =>
      match kvs.lookup "content" with
      | some content =>
          match content with
          | .arr (.cons c0 _) =>
              match c0 with
              | .obj c0kvs =>
                  match c0kvs.lookup "text" with
                  | some t => Json.obj (.cons "result" t .nil)
                  | none =>
                      Json.obj (.cons "result" (Json.str (pyStr c0)) .nil)
              | _ => Json.obj (.cons "result" (Json.str (pyStr c0)) .nil)
          | .str s => Json.obj (.cons "result" (Json.str s) .nil)
          | _ => Json.obj (.cons "result" (Json.str (pyStr content)) .nil)
      | none =>
          match kvs.lookup "result" with
          | some _ => result
          | none => Json.obj (.cons "result" result .nil)
  | _ => Json.obj (.cons "result" result .nil)

/-- The first textual element of a decoded list: the `text` member of
the first element that is a dict carrying one. -/
def firstTextual : JsonList → Option Json
  | .nil => none
  | .cons x xs =>
      match x with
      | .obj kvs =>
          match kvs.lookup "text" with
          | some t => some t
          | none => firstTextual xs
      | _ => firstTextual xs

/-- The normalization described by the claim's words, for comparison:
"if the raw result dict carries a `content` wrapper holding a non-empty
list, the first textual element is extracted as the result; otherwise if
it carries a bare `result` field, that is returned unchanged; otherwise
the whole payload is wrapped as the result". -/
def specClaimNormalize (result : Json) : Json :=
  match result with
  | .obj kvs =>
      match kvs.lookup "content" with
      | some (.arr (.cons c0 rest)) =>
          match firstTextual (JsonList.cons c0 rest) with
          | some t => Json.obj (.cons "result" t .nil)
          | none => Json.obj (.cons "result" (Json.str (pyStr c0)) .nil)
      | _ =>
          match kvs.lookup "result" with
          | some _ => result
          | none => Json.obj (.cons "result" result .nil)
  | _ => Json.obj (.cons "result" result .nil)

/-- `execute_mcp_tool` for a non-meta `(server_name, tool_name)` pair
(lines 131-183).  `Except.error` is a raised exception;
`Except.ok` is a returned dict. -/
def executeMcpTool (clients : List (String × ClientModel))
    (server_name tool_name : String) (arguments : JsonObj) :
    Except String Json :=
  match clients.lookup server_name with
  | none => .error ("MCP server '" ++ server_name ++ "' not registered.")
  | some mcp_client =>
      if tool_name = "brave_web_search" then
        match braveFixup arguments with
        | none => .ok missingQueryError
        | some fixed =>
            .ok (normalizeResult (mcp_client.execute tool_name fixed))
      else
        .ok (normalizeResult (mcp_client.execute tool_name arguments))

/-!
## Tool-orchestration loop (`LLMSelector.generate_response`,
`src/bot/llm_utils.py` lines 48-139)

The model's behaviour is an oracle mapping the iteration index and the
current prompt to either a final text (`LLMResponse`, modelled by its
text) or a tool call together with the outcome of executing it
(`Except.error` models `execute_mcp_tool` raising) and the stderr lines
drained afterwards.  The loop body's `try` covers the execution, the
stderr merge and the prompt folding, so a failing call only changes the
next prompt and consumes an iteration.
-/

/-- A decoded JSON array built from a Lean list. -/
def JsonList.ofList : List Json → JsonList
  | [] => .nil
  | x :: xs => .cons x (JsonList.ofList xs)

/-- `MAX_TOOL_OUTPUT_LENGTH` (line 13). -/
def MAX_TOOL_OUTPUT_LENGTH : Nat := 2000

/-- The marker appended on truncation, with `MAX_TOOL_OUTPUT_LENGTH`
interpolated (lines 90-94). -/
def truncationText : String := "... [результат сокращен до 2000 символов]"

/-- Lines 89-94: serialized tool output strictly longer than
`MAX_TOOL_OUTPUT_LENGTH` is cut to its first `MAX_TOOL_OUTPUT_LENGTH`
characters and the marker is appended; otherwise it is left as is. -/
def truncateToolOutput (s : String) : String :=
  if s.length > MAX_TOOL_OUTPUT_LENGTH then
    s.take MAX_TOOL_OUTPUT_LENGTH ++ truncationText
  else s

/-- Lines 78-86: non-empty stderr is folded into the tool result dict
under `stderr_output` (the result of `execute_mcp_tool` is always a
dict, but the non-dict arm is embedded as well). -/
def mergeStderr (res : Json) (stderr : List String) : Json :=
  match stderr with
  | [] => res
  | _ =>
      match res with
      | .obj kvs =>
          .obj (kvs.set "stderr_output"
            (Json.arr (JsonList.ofList (stderr.map Json.str))))
      | _ =>
          .obj (.cons "result" res
            (.cons "stderr_output"
              (Json.arr (JsonList.ofList (stderr.map Json.str))) .nil))

/-- Lines 96-104: the tool-output sentence and the next prompt after a
successful call. -/
def successNextPrompt (tool : String) (args : JsonObj) (merged : Json) :
    String :=
  "Основываясь на следующем выводе инструмента, " ++
  "пожалуйста, продолжите или дайте окончательный ответ:\n" ++
  "Вызов инструмента '" ++ tool ++ "' с аргументами " ++
  pyStr (Json.obj args) ++ " вернул: " ++
  truncateToolOutput (jsonDumps merged)

/-- Lines 106-125: the next prompt after a failing call. -/
def errorNextPrompt (server tool e : String) (stderr : List String) :
    String :=
  let base := "Ошибка при выполнении инструмента MCP '" ++ server ++ "/" ++
    tool ++ "': " ++ e
  let msg :=
    match stderr with
    | [] => base
    | _ => base ++ "\nStderr: " ++
        jsonDumps (Json.arr (JsonList.ofList (stderr.map Json.str)))
  "Предыдущий вызов инструмента завершился с ошибкой: " ++ msg ++
  "\nПожалуйста, попробуйте снова или дайте окончательный ответ."

/-- The model's answer for one round trip, with the environment's
behaviour for any tool call it makes. -/
inductive ModelStep where
  | text (r : String) : ModelStep
  | call (server tool : String) (args : JsonObj)
      (outcome : Except String Json) (stderr : List String) : ModelStep

/-- `MAX_TOOL_CALL_ITERATIONS` (line 59). -/
def MAX_TOOL_CALL_ITERATIONS : Nat := 3

/-- The fixed fallback returned when the iteration budget is exhausted
(lines 134-138). -/
def iterationFallbackText : String :=
  "Я достиг максимального количества итераций для вызова " ++
  "инструментов и не смог сформировать окончательный ответ. " ++
  "Пожалуйста, переформулируйте ваш запрос или попробуйте позже."

/-- The `for i in range(MAX_TOOL_CALL_ITERATIONS)` loop (lines 63-129):
returns the final text and the number of model round trips made. -/
def genLoop (steps : Nat → String → ModelStep) (i fuel : Nat)
    (prompt : String) : String × Nat :=
  match fuel with
  | 0 => (iterationFallbackText, i)
  | fuel + 1 =>
      match steps i prompt with
      | .text r => (r, i + 1)
      | .call server tool args outcome stderr =>
          let nextPrompt :=
            match outcome with
            | .ok res => successNextPrompt tool args (mergeStderr res stderr)
            | .error e => errorNextPrompt server tool e stderr
          genLoop steps (i + 1) fuel nextPrompt

/-- `generate_response` from the top of the loop (provider and tool
catalog already fetched). -/
def generateResponse (steps : Nat → String → ModelStep) (prompt : String) :
    String × Nat :=
  genLoop steps 0 MAX_TOOL_CALL_ITERATIONS prompt

/-!
## Theorems settling the claims
-/

/-- Claim C8: in the orchestration loop, a serialized tool output
strictly longer than 2000 characters is cut to its first 2000
characters with the truncation notice appended before being folded into
the next prompt (`successNextPrompt` ends in the truncated output); an
output of 2000 characters or fewer is passed through unmodified. -/
theorem truncate_tool_output_spec (s : String) :
    (s.length ≤ 2000 → truncateToolOutput s = s) ∧
    (2000 < s.length →
      truncateToolOutput s = s.take 2000 ++ truncationText) ∧
    (∀ (tool : String) (args : JsonObj) (merged : Json),
      ∃ p, successNextPrompt tool args merged =
        p ++ truncateToolOutput (jsonDumps merged)) := by
  refine ⟨fun h => ?_, fun h => ?_, fun tool args merged => ⟨_, rfl⟩⟩
  · simp only [truncateToolOutput, MAX_TOOL_OUTPUT_LENGTH]
    rw [if_neg (by omega)]
  · simp only [truncateToolOutput, MAX_TOOL_OUTPUT_LENGTH]
    rw [if_pos (by omega)]

/-- Witness for `truncate_tool_output_spec` at concrete inputs: a short
output is unchanged, a 2001-character output is truncated. -/
theorem truncate_tool_output_spec_witness :
    ("short".length ≤ 2000 ∧ truncateToolOutput "short" = "short") ∧
    (2000 < (String.mk (List.replicate 2001 'a')).length ∧
      truncateToolOutput (String.mk (List.replicate 2001 'a')) =
        (String.mk (List.replicate 2001 'a')).take 2000 ++ truncationText) :=
  ⟨⟨by decide, (truncate_tool_output_spec "short").1 (by decide)⟩,
   ⟨by show 2000 < (List.replicate 2001 'a').length
       rw [List.length_replicate]
       omega,
    (truncate_tool_output_spec _).2.1
      (by show 2000 < (List.replicate 2001 'a').length
          rw [List.length_replicate]
          omega)⟩⟩

/-- Claim C10: every public operation of the stdio client is total with
respect to exceptions — in this embedding each returns a plain `Json`
for every outcome of the underlying handshake and request, and an
exceptional outcome (timeout, transport failure, or a provider-reported
JSON-RPC error re-raised from the future) yields an empty list for the
listing operations and a dict carrying an `"error"` key for
`execute_tool` and `access_resource`. -/
theorem stdio_public_ops_swallow_errors (e : String) :
    listToolsRun (.error e) = Json.arr .nil ∧
    listResourcesRun (.error e) = Json.arr .nil ∧
    executeToolRun (.error e) =
      Json.obj (.cons "error" (Json.str e) .nil) ∧
    (executeToolRun (.error e)).hasKey "error" = true ∧
    accessResourceRun (.error e) =
      Json.obj (.cons "error" (Json.str e) .nil) ∧
    (accessResourceRun (.error e)).hasKey "error" = true :=
  ⟨rfl, rfl, rfl, rfl, rfl, rfl⟩

/-- Claim C9: `close()` returns within the graceful-wait bound of 3 s
plus the kill-wait bound of 2 s for every process behaviour (including
a process that never exits), is a total function (it never raises), and
a second call after a first call that reaped the process returns
immediately, merely re-marking stdin closed. -/
theorem close_bounded_and_idempotent (c : CloseState) (b b' : CloseBehavior) :
    (closeRun c b).2 ≤ 3 + 2 ∧
    ((closeRun c b).1.procExited = true →
      closeRun (closeRun c b).1 b' =
        ({ (closeRun c b).1 with stdinClosed := true }, 0)) := by
  obtain ⟨rc, sc, pe, kl⟩ := c
  obtain ⟨cr, eg, ek, ef⟩ := b
  cases pe <;> cases cr <;> cases eg <;> cases ek <;> cases ef <;>
    simp [closeRun]

/-- Witness for `close_bounded_and_idempotent`: a client whose process
exits within the graceful wait, closed twice. -/
theorem close_bounded_and_idempotent_witness :
    (closeRun ⟨false, false, false, false⟩ ⟨false, true, false, false⟩).1.procExited
      = true ∧
    closeRun (closeRun ⟨false, false, false, false⟩
        ⟨false, true, false, false⟩).1 ⟨false, false, false, false⟩ =
      ({ (closeRun ⟨false, false, false, false⟩
          ⟨false, true, false, false⟩).1 with stdinClosed := true }, 0) :=
  ⟨by decide,
   (close_bounded_and_idempotent ⟨false, false, false, false⟩
      ⟨false, true, false, false⟩ ⟨false, false, false, false⟩).2 (by decide)⟩

/-- Claim C6: for every combination of zero or more registered providers
each exposing zero or more tools, the meta tool's filtered listing never
contains a tool with the meta key `("meta", "list_mcp_tools")`, and
contains every other aggregated tool. -/
theorem meta_listing_self_free_and_complete
    (providers : List (String × List JsonObj)) :
    (∀ t ∈ metaFilteredTools providers, isMetaKey t = false) ∧
    (∀ t ∈ getAvailableMcpTools providers,
      isMetaKey t = false → t ∈ metaFilteredTools providers) := by
  constructor
  · intro t ht
    have h := (List.mem_filter.mp ht).2
    simpa using h
  · intro t ht h
    exact List.mem_filter.mpr ⟨ht, by simp [h]⟩

/-- Witness for `meta_listing_self_free_and_complete`: one provider with
one tool, whose aggregated entry survives the filter. -/
theorem meta_listing_self_free_and_complete_witness :
    isMetaKey (fetchOneTool "srv" (.cons "name" (Json.str "echo") .nil))
      = false ∧
    fetchOneTool "srv" (.cons "name" (Json.str "echo") .nil) ∈
      metaFilteredTools [("srv", [.cons "name" (Json.str "echo") .nil])] :=
  ⟨by decide,
   (meta_listing_self_free_and_complete
      [("srv", [.cons "name" (Json.str "echo") .nil])]).2
      (fetchOneTool "srv" (.cons "name" (Json.str "echo") .nil))
      (by simp [getAvailableMcpTools, fetchServerTools]) (by decide)⟩

/-- Setting a key makes it present: `(d.set k v).lookup k = some v`. -/
theorem JsonObj.lookup_set_self :
    (d : JsonObj) → (k : String) → (v : Json) →
      (d.set k v).lookup k = some v
  | .nil, k, v => by simp [JsonObj.set, JsonObj.lookup]
  | .cons k' v' rest, k, v => by
      by_cases h : k' = k
      · simp [JsonObj.set, JsonObj.lookup, h]
      · simp [JsonObj.set, JsonObj.lookup, h,
          JsonObj.lookup_set_self rest k v]

/-- Claim C4 (amended): in `execute_mcp_tool`, calling
`brave_web_search` with a `q` argument and no `query` renames `q` to
`query` before the transport is reached; calling it with neither key
returns `{"error": "Missing required 'query' parameter"}` to the caller
(a normal return, not a raised exception) without consulting the
client; an unregistered provider raises `ValueError`; and an error the
client reports for a call (the stdio client converts every transport or
protocol failure into an `{"error": …}` return) comes back wrapped as a
normal result rather than propagating. -/
theorem executeMcpTool_argument_policy
    (clients : List (String × ClientModel)) (server tool_name : String)
    (f : ClientModel) (args : JsonObj) (x : Json) :
    (clients.lookup server = some f → args.lookup "q" = some x →
      args.hasKey "query" = false →
      executeMcpTool clients server "brave_web_search" args =
        .ok (normalizeResult
          (f.execute "brave_web_search" ((args.remove "q").set "query" x)))) ∧
    (clients.lookup server = some f → args.hasKey "q" = false →
      args.hasKey "query" = false →
      executeMcpTool clients server "brave_web_search" args =
        .ok missingQueryError) ∧
    (clients.lookup server = none →
      executeMcpTool clients server tool_name args =
        .error ("MCP server '" ++ server ++ "' not registered.")) ∧
    (clients.lookup server = some f → tool_name ≠ "brave_web_search" →
      ∀ msg : String,
        f.execute tool_name args =
          Json.obj (.cons "error" (Json.str msg) .nil) →
        executeMcpTool clients server tool_name args =
          .ok (Json.obj (.cons "result"
            (Json.obj (.cons "error" (Json.str msg) .nil)) .nil))) := by
  refine ⟨fun hreg hq hnoquery => ?_, fun hreg hnoq hnoquery => ?_,
    fun hmiss => ?_, fun hreg htool msg hexec => ?_⟩
  · have hnq : (args.lookup "query").isSome = false := hnoquery
    have hfix : braveFixup args = some ((args.remove "q").set "query" x) := by
      simp [braveFixup, hq, JsonObj.hasKey, hnq, JsonObj.lookup_set_self]
    simp [executeMcpTool, hreg, hfix]
  · have hnq : (args.lookup "query").isSome = false := hnoquery
    have hqnone : args.lookup "q" = none := by
      cases h : args.lookup "q" with
      | none => rfl
      | some y =>
          rw [JsonObj.hasKey, h] at hnoq
          simp at hnoq
    have hfix : braveFixup args = none := by
      simp [braveFixup, hqnone, JsonObj.hasKey, hnq]
    simp [executeMcpTool, hreg, hfix]
  · simp [executeMcpTool, hmiss]
  · have hnorm : normalizeResult
        (Json.obj (.cons "error" (Json.str msg) .nil)) =
        Json.obj (.cons "result"
          (Json.obj (.cons "error" (Json.str msg) .nil)) .nil) := by
      simp [normalizeResult, JsonObj.lookup]
    simp [executeMcpTool, hreg, htool, hexec, hnorm]

/-- A stand-in registered client used by the concrete check of
`executeMcpTool_argument_policy`. -/
def dummySearchClient : ClientModel :=
  ⟨[], fun _ _ => Json.null⟩

/-- Witness for `executeMcpTool_argument_policy`: a concrete registry
with one provider, exercising the `q`-to-`query` fixup. -/
theorem executeMcpTool_argument_policy_witness :
    List.lookup "search" [("search", dummySearchClient)] =
      some dummySearchClient ∧
    executeMcpTool [("search", dummySearchClient)] "search"
        "brave_web_search" (.cons "q" (Json.str "x") .nil) =
      .ok (normalizeResult (dummySearchClient.execute "brave_web_search"
        (((JsonObj.cons "q" (Json.str "x") .nil).remove "q").set "query"
          (Json.str "x")))) :=
  ⟨rfl,
   (executeMcpTool_argument_policy [("search", dummySearchClient)] "search"
      "brave_web_search" dummySearchClient
      (.cons "q" (Json.str "x") .nil) (Json.str "x")).1 rfl rfl rfl⟩

/-- Counterexample for claim C4 as stated: executing the designated
search tool with neither `q` nor `query` on a registered provider does
not raise — `execute_mcp_tool` returns the dict
`{"error": "Missing required 'query' parameter"}` normally (lines
156-158 are a `return`, not a `raise`). -/
theorem executeMcpTool_missing_query_counterexample :
    executeMcpTool [("search", dummySearchClient)] "search"
        "brave_web_search" .nil = .ok missingQueryError ∧
    (executeMcpTool [("search", dummySearchClient)] "search"
        "brave_web_search" .nil).isOk = true :=
  ⟨rfl, rfl⟩

/-- The `content` member of a raw result, when the result is a dict. -/
def contentOf (result : Json) : Option Json :=
  match result with
  | .obj kvs => kvs.lookup "content"
  | _ => none

/-- The normalization precedence as amended: a dict with a `content`
member is unwrapped — non-empty list: the first element's `text` member
(or the Python `str` of the first element when it has none); string:
that string; any other content: its Python `str` — otherwise a dict
with a `result` member is returned unchanged; any other payload is
wrapped as `{"result": payload}`. -/
def amendedNormalize (result : Json) : Json :=
  match contentOf result with
  | some (Json.arr (.cons c0 _)) =>
      match c0 with
      | .obj c0kvs =>
          match c0kvs.lookup "text" with
          | some t => Json.obj (.cons "result" t .nil)
          | none => Json.obj (.cons "result" (Json.str (pyStr c0)) .nil)
      | _ => Json.obj (.cons "result" (Json.str (pyStr c0)) .nil)
  | some (Json.str s) => Json.obj (.cons "result" (Json.str s) .nil)
  | some other => Json.obj (.cons "result" (Json.str (pyStr other)) .nil)
  | none =>
      if (result.hasKey "result" : Bool) then result
      else Json.obj (.cons "result" result .nil)

/-- Claim C5 (amended): the normalization of `execute_mcp_tool`
(lines 163-183) is a total function agreeing with the amended
precedence `amendedNormalize` on every raw result value. -/
theorem normalizeResult_amended (result : Json) :
    normalizeResult result = amendedNormalize result := by
  cases result with
  | obj kvs =>
      cases hc : kvs.lookup "content" with
      | some content =>
          cases content with
          | arr xs =>
              cases xs with
              | nil => simp [normalizeResult, amendedNormalize, contentOf, hc]
              | cons c0 rest =>
                  cases c0 <;>
                    simp [normalizeResult, amendedNormalize, contentOf, hc]
          | _ => simp [normalizeResult, amendedNormalize, contentOf, hc]
      | none =>
          cases hr : kvs.lookup "result" with
          | some v =>
              simp [normalizeResult, amendedNormalize, contentOf, hc,
                Json.hasKey, JsonObj.hasKey, hr]
          | none =>
              simp [normalizeResult, amendedNormalize, contentOf, hc,
                Json.hasKey, JsonObj.hasKey, hr]
  | _ => simp [normalizeResult, amendedNormalize, contentOf, Json.hasKey]

/-- Counterexample for claim C5 as stated: for the raw result
`{"content": "hello"}` the code returns `{"result": "hello"}` (the
`isinstance(content, str)` arm, line 174-175), while the claim's
precedence — non-empty-content-list, else bare `result` member, else
wrap the whole payload — would wrap the whole dict. -/
theorem normalizeResult_precedence_counterexample :
    normalizeResult (Json.obj (.cons "content" (Json.str "hello") .nil)) =
      Json.obj (.cons "result" (Json.str "hello") .nil) ∧
    specClaimNormalize (Json.obj (.cons "content" (Json.str "hello") .nil)) =
      Json.obj (.cons "result"
        (Json.obj (.cons "content" (Json.str "hello") .nil)) .nil) ∧
    normalizeResult (Json.obj (.cons "content" (Json.str "hello") .nil)) ≠
      specClaimNormalize
        (Json.obj (.cons "content" (Json.str "hello") .nil)) :=
  ⟨rfl, rfl, by decide⟩

/-- One step of the readiness loop from an uninitialized client: the
attempt returns `True` exactly when the handshake succeeds, because the
trial `list_tools` call converts its own failures into `[]`. -/
theorem readyAttemptStep_false (a : ReadyAttempt) :
    readyAttemptStep false a =
      (a.handshakeOk, a.handshakeOk) := by
  cases h : a.handshakeOk <;>
    simp [readyAttemptStep, initializeConnection, h]

/-- The readiness loop from an uninitialized client succeeds exactly
when some attempt within the remaining budget has a successful
handshake. -/
theorem waitUntilReadyGo_true_iff (attempts : Nat → ReadyAttempt) :
    ∀ (budget elapsed : Nat),
      waitUntilReadyGo attempts false elapsed budget = true ↔
        ∃ j < budget, (attempts (elapsed + j)).handshakeOk = true := by
  intro budget
  induction budget with
  | zero => intro e; simp [waitUntilReadyGo]
  | succ n ih =>
      intro e
      cases hh : (attempts e).handshakeOk with
      | true =>
          constructor
          · intro _
            exact ⟨0, by omega, by simpa using hh⟩
          · intro _
            simp [waitUntilReadyGo, readyAttemptStep_false, hh]
      | false =>
        constructor
        · intro hgo
          rw [waitUntilReadyGo, readyAttemptStep_false, hh] at hgo
          obtain ⟨j, hj, hjo⟩ := (ih (e + 1)).mp hgo
          exact ⟨j + 1, by omega, by
            have : e + 1 + j = e + (j + 1) := by omega
            rw [this] at hjo
            exact hjo⟩
        · rintro ⟨j, hj, hjo⟩
          rw [waitUntilReadyGo, readyAttemptStep_false, hh]
          cases j with
          | zero => rw [Nat.add_zero] at hjo; rw [hjo] at hh; cases hh
          | succ j' =>
              refine (ih (e + 1)).mpr ⟨j', by omega, ?_⟩
              have : e + 1 + j' = e + (j' + 1) := by omega
              rw [this]
              exact hjo

/-- Claim C7 (amended): `wait_until_ready(timeout)` returns `true` if
and only if the `initialize` handshake succeeds for some attempt before
the deadline; the outcome of the trial catalog call is not observable,
because `list_tools` converts its own failures into an empty list.  It
returns `false` — it is a total function, so it never raises — when the
deadline elapses with no successful handshake. -/
theorem waitUntilReady_true_iff_handshake (attempts : Nat → ReadyAttempt)
    (timeout : Nat) :
    waitUntilReady attempts timeout = true ↔
      ∃ k < timeout, (attempts k).handshakeOk = true := by
  have h := waitUntilReadyGo_true_iff attempts timeout 0
  simpa using h

/-- Counterexample for claim C7 as stated: with a one-second deadline
and an environment whose handshake succeeds but whose `tools/list`
request fails, `wait_until_ready` returns `true` although the trial
catalog call did not succeed — so "returns true iff both the handshake
and a trial catalog call succeed" fails. -/
theorem waitUntilReady_catalog_failure_counterexample :
    waitUntilReady (fun _ => ⟨true, false⟩) 1 = true ∧
    ¬ specReadyBothSucceed (fun _ => ⟨true, false⟩) 1 := by
  constructor
  · rfl
  · rintro ⟨k, _, _, hc⟩
    simp at hc

/-- The loop body consumes one model round trip per iteration and
returns either a text the model produced at some consumed round trip or
the fixed fallback once the budget is exhausted — whatever the mix of
plain texts, successful tool calls and failing tool calls the oracle
produces. -/
theorem genLoop_bounded (steps : Nat → String → ModelStep) :
    ∀ (fuel i : Nat) (prompt : String),
      (genLoop steps i fuel prompt).2 ≤ i + fuel ∧
      ((genLoop steps i fuel prompt).1 = iterationFallbackText ∨
        ∃ k, i ≤ k ∧ k < i + fuel ∧ ∃ p,
          steps k p = ModelStep.text (genLoop steps i fuel prompt).1) := by
  intro fuel
  induction fuel with
  | zero =>
      intro i prompt
      simp [genLoop]
  | succ n ih =>
      intro i prompt
      cases hstep : steps i prompt with
      | text r =>
          constructor
          · simp only [genLoop, hstep]
            omega
          · right
            exact ⟨i, le_refl i, by omega, prompt, by simp [genLoop, hstep]⟩
      | call server tool args outcome stderr =>
          cases outcome with
          | ok res =>
              have hrec : genLoop steps i (n + 1) prompt =
                  genLoop steps (i + 1) n
                    (successNextPrompt tool args (mergeStderr res stderr)) := by
                simp [genLoop, hstep]
              rw [hrec]
              obtain ⟨h1, h2⟩ :=
                ih (i + 1) (successNextPrompt tool args (mergeStderr res stderr))
              refine ⟨by omega, ?_⟩
              rcases h2 with h | ⟨k, hk1, hk2, p, hp⟩
              · left; exact h
              · right; exact ⟨k, by omega, by omega, p, hp⟩
          | error e =>
              have hrec : genLoop steps i (n + 1) prompt =
                  genLoop steps (i + 1) n
                    (errorNextPrompt server tool e stderr) := by
                simp [genLoop, hstep]
              rw [hrec]
              obtain ⟨h1, h2⟩ :=
                ih (i + 1) (errorNextPrompt server tool e stderr)
              refine ⟨by omega, ?_⟩
              rcases h2 with h | ⟨k, hk1, hk2, p, hp⟩
              · left; exact h
              · right; exact ⟨k, by omega, by omega, p, hp⟩

/-- Claim C3: for every sequence of model responses (plain text, tool
calls, or tool calls whose execution raises), `generate_response` makes
at most `MAX_TOOL_CALL_ITERATIONS = 3` model round trips and returns
either a text produced by the model or the one fixed fallback message;
it is a total function of the oracle, so no exception from tool
execution propagates, even when every iteration is a failing tool
call. -/
theorem generateResponse_bounded_total (steps : Nat → String → ModelStep)
    (prompt : String) :
    (generateResponse steps prompt).2 ≤ 3 ∧
    ((generateResponse steps prompt).1 = iterationFallbackText ∨
      ∃ k < 3, ∃ p, steps k p =
        ModelStep.text (generateResponse steps prompt).1) := by
  obtain ⟨h1, h2⟩ :=
    genLoop_bounded steps MAX_TOOL_CALL_ITERATIONS 0 prompt
  refine ⟨by simpa [generateResponse, MAX_TOOL_CALL_ITERATIONS] using h1, ?_⟩
  rcases h2 with h | ⟨k, hk1, hk2, p, hp⟩
  · left; exact h
  · right
    refine ⟨k, ?_, p, hp⟩
    simpa [MAX_TOOL_CALL_ITERATIONS] using hk2

/-- Claim C2: when the 30-second wait elapses with no matching response,
the caller gets the timeout error, the request's pending entry is
removed, every other in-flight request and every recorded resolution is
untouched, and a late response arriving afterwards with that id leaves
the client state exactly as it is (it is treated as an unknown id and
merely logged). -/
theorem timeout_removes_pending_and_discards_late (st : StdioState)
    (method : String) (i : Nat) (hnodup : st.pending.Nodup) :
    (waitPhase st method i none).2 =
      .error ("Request " ++ method ++ " timed out after 30 seconds") ∧
    i ∉ (waitPhase st method i none).1.pending ∧
    (∀ j, j ≠ i →
      (j ∈ (waitPhase st method i none).1.pending ↔ j ∈ st.pending)) ∧
    (waitPhase st method i none).1.resolved = st.resolved ∧
    (∀ r : RpcResponse, r.id? = some i →
      processResponse (waitPhase st method i none).1 r =
        (waitPhase st method i none).1) := by
  refine ⟨rfl, ?_, ?_, rfl, ?_⟩
  · show i ∉ st.pending.erase i
    exact hnodup.not_mem_erase
  · intro j hj
    show j ∈ st.pending.erase i ↔ j ∈ st.pending
    exact List.mem_erase_of_ne hj
  · intro r hid
    have hnot : i ∉ st.pending.erase i := hnodup.not_mem_erase
    simp [processResponse, hid, waitPhase, hnot]

/-- Witness for `timeout_removes_pending_and_discards_late`: three
in-flight requests, the second of which times out; its late response is
then ignored. -/
theorem timeout_removes_pending_and_discards_late_witness :
    ([1, 2, 3] : List Nat).Nodup ∧
    2 ∉ (waitPhase ⟨4, [1, 2, 3], []⟩ "tools/call" 2 none).1.pending ∧
    processResponse (waitPhase ⟨4, [1, 2, 3], []⟩ "tools/call" 2 none).1
        ⟨some 2, some Json.null, none⟩ =
      (waitPhase ⟨4, [1, 2, 3], []⟩ "tools/call" 2 none).1 :=
  ⟨by decide,
   (timeout_removes_pending_and_discards_late ⟨4, [1, 2, 3], []⟩
      "tools/call" 2 (by decide)).2.1,
   (timeout_removes_pending_and_discards_late ⟨4, [1, 2, 3], []⟩
      "tools/call" 2 (by decide)).2.2.2.2 ⟨some 2, some Json.null, none⟩ rfl⟩

/-- Processing one response never removes a recorded resolution. -/
theorem processResponse_resolved_mono (st : StdioState) (r : RpcResponse)
    (x : Nat × FutureVal) (hx : x ∈ st.resolved) :
    x ∈ (processResponse st r).resolved := by
  rcases hid : r.id? with _ | i
  · simpa [processResponse, hid] using hx
  · by_cases hmem : i ∈ st.pending
    · rcases hout : respOutcome r with _ | fv
      · simpa [processResponse, hid, hmem, hout] using hx
      · simp only [processResponse, hid, hmem, hout, if_pos]
        exact List.mem_cons_of_mem _ hx
    · simpa [processResponse, hid, hmem] using hx

/-- A recorded resolution survives the whole reader run. -/
theorem processAll_resolved_mono (rs : List RpcResponse) :
    ∀ (st : StdioState) (x : Nat × FutureVal), x ∈ st.resolved →
      x ∈ (processAll st rs).resolved := by
  induction rs with
  | nil => intro st x hx; simpa [processAll] using hx
  | cons r rest ih =>
      intro st x hx
      have h1 : x ∈ (processResponse st r).resolved :=
        processResponse_resolved_mono st r x hx
      simpa [processAll] using ih (processResponse st r) x h1

/-- A resolution recorded after one response was either already there
or came from that response. -/
theorem processResponse_resolved_src (st : StdioState) (r : RpcResponse)
    (x : Nat × FutureVal) (hx : x ∈ (processResponse st r).resolved) :
    x ∈ st.resolved ∨ (r.id? = some x.1 ∧ respOutcome r = some x.2) := by
  rcases hid : r.id? with _ | i
  · left; simpa [processResponse, hid] using hx
  · by_cases hmem : i ∈ st.pending
    · rcases hout : respOutcome r with _ | fv
      · left; simpa [processResponse, hid, hmem, hout] using hx
      · have hx' : x ∈ (i, fv) :: st.resolved := by
          simpa [processResponse, hid, hmem, hout] using hx
        rcases List.mem_cons.mp hx' with h | h
        · right
          subst h
          exact ⟨rfl, rfl⟩
        · left; exact h
    · left; simpa [processResponse, hid, hmem] using hx

/-- A resolution recorded after a whole reader run was either already
there or came from one of the processed responses. -/
theorem processAll_resolved_src (rs : List RpcResponse) :
    ∀ (st : StdioState) (x : Nat × FutureVal),
      x ∈ (processAll st rs).resolved →
      x ∈ st.resolved ∨
        ∃ r ∈ rs, r.id? = some x.1 ∧ respOutcome r = some x.2 := by
  induction rs with
  | nil => intro st x hx; left; simpa [processAll] using hx
  | cons r rest ih =>
      intro st x hx
      have hx' : x ∈ (processAll (processResponse st r) rest).resolved := by
        simpa [processAll] using hx
      rcases ih (processResponse st r) x hx' with h | ⟨r', hr', h1, h2⟩
      · rcases processResponse_resolved_src st r x h with h' | ⟨h1, h2⟩
        · left; exact h'
        · right; exact ⟨r, List.mem_cons_self r rest, h1, h2⟩
      · right; exact ⟨r', List.mem_cons_of_mem r hr', h1, h2⟩

/-- An id distinct from the processed response's id stays pending. -/
theorem processResponse_pending_sub (st : StdioState) (r : RpcResponse)
    (j : Nat) (hj : j ∈ st.pending)
    (hne : ∀ i, r.id? = some i → j ≠ i) :
    j ∈ (processResponse st r).pending := by
  rcases hid : r.id? with _ | i
  · simpa [processResponse, hid] using hj
  · have hji : j ≠ i := hne i hid
    by_cases hmem : i ∈ st.pending
    · rcases hout : respOutcome r with _ | fv
      · simp only [processResponse, hid, hmem, hout, if_pos]
        exact (List.mem_erase_of_ne hji).mpr hj
      · simp only [processResponse, hid, hmem, hout, if_pos]
        exact (List.mem_erase_of_ne hji).mpr hj
    · simpa [processResponse, hid, hmem] using hj

/-- In a batch of responses with pairwise-distinct ids, no response in
the tail reuses the head's id. -/
theorem head_id_not_in_rest (r0 : RpcResponse) (rest : List RpcResponse)
    (hnodup : ((r0 :: rest).filterMap RpcResponse.id?).Nodup)
    (i0 : Nat) (hid0 : r0.id? = some i0) :
    ∀ r' ∈ rest, r'.id? ≠ some i0 := by
  intro r' hr' hcontra
  have hmem : i0 ∈ rest.filterMap RpcResponse.id? :=
    List.mem_filterMap.mpr ⟨r', hr', hcontra⟩
  rw [List.filterMap_cons, hid0] at hnodup
  exact (List.nodup_cons.mp hnodup).1 hmem

/-- Claim C1: for every set of requests whose ids are pending on one
stdio client, and every arrival order of responses with pairwise
distinct matching ids, the reader resolves each pending request with
exactly the payload of the response carrying its id — the result as a
value, or the error as a rejection — independent of the order in which
the responses arrive, which is quantified away by `rs` ranging over
every sequence. -/
theorem reader_correlates_by_id (rs : List RpcResponse) :
    ∀ (st : StdioState),
      (∀ r ∈ rs, ∀ i, r.id? = some i → i ∈ st.pending) →
      ((rs.filterMap RpcResponse.id?).Nodup) →
      (∀ r ∈ rs, ∀ i, r.id? = some i → ∀ fv, (i, fv) ∉ st.resolved) →
      ∀ r ∈ rs, ∀ i fv, r.id? = some i → respOutcome r = some fv →
        (i, fv) ∈ (processAll st rs).resolved ∧
        (∀ fv', (i, fv') ∈ (processAll st rs).resolved → fv' = fv) := by
  induction rs with
  | nil => intro st _ _ _ r hr; cases hr
  | cons r0 rest ih =>
      intro st hpend hnodup hres r hr i fv hid hout
      have hfold : processAll st (r0 :: rest) =
          processAll (processResponse st r0) rest := by
        simp [processAll]
      rcases List.mem_cons.mp hr with heq | hmem_rest
      · subst heq
        have hmemP : i ∈ st.pending :=
          hpend r (List.mem_cons_self r rest) i hid
        have hst1 : (processResponse st r).resolved =
            (i, fv) :: st.resolved := by
          simp [processResponse, hid, hmemP, hout]
        constructor
        · rw [hfold]
          exact processAll_resolved_mono rest (processResponse st r) (i, fv)
            (by rw [hst1]; exact List.mem_cons_self _ _)
        · intro fv' hfv'
          rw [hfold] at hfv'
          rcases processAll_resolved_src rest (processResponse st r)
              (i, fv') hfv' with h | ⟨r', hr', h1, h2⟩
          · rw [hst1] at h
            rcases List.mem_cons.mp h with h' | h'
            · exact congrArg Prod.snd h'
            · exact absurd h'
                (hres r (List.mem_cons_self r rest) i hid fv')
          · exact absurd h1 (head_id_not_in_rest r rest hnodup i hid r' hr')
      · -- the response is in the tail: run the tail from the stepped state
        have hnodup1 : (rest.filterMap RpcResponse.id?).Nodup := by
          rcases hid0 : r0.id? with _ | i0
          · rw [List.filterMap_cons, hid0] at hnodup
            exact hnodup
          · rw [List.filterMap_cons, hid0] at hnodup
            exact (List.nodup_cons.mp hnodup).2
        have hpend1 : ∀ r' ∈ rest, ∀ j, r'.id? = some j →
            j ∈ (processResponse st r0).pending := by
          intro r' hr' j hj
          refine processResponse_pending_sub st r0 j
            (hpend r' (List.mem_cons_of_mem r0 hr') j hj) ?_
          intro i0 hid0 hji
          subst hji
          exact head_id_not_in_rest r0 rest hnodup j hid0 r' hr' hj
        have hres1 : ∀ r' ∈ rest, ∀ j, r'.id? = some j →
            ∀ fv'', (j, fv'') ∉ (processResponse st r0).resolved := by
          intro r' hr' j hj fv'' hcontra
          rcases processResponse_resolved_src st r0 (j, fv'') hcontra
            with h | ⟨h1, _⟩
          · exact hres r' (List.mem_cons_of_mem r0 hr') j hj fv'' h
          · exact head_id_not_in_rest r0 rest hnodup j h1 r' hr' hj
        rw [hfold]
        exact ih (processResponse st r0) hpend1 hnodup1 hres1
          r hmem_rest i fv hid hout

/-- Three requests in flight (ids 1, 2, 3) for the concrete check of
`reader_correlates_by_id`. -/
def correlationDemoState : StdioState := ⟨4, [1, 2, 3], []⟩

/-- Responses arriving in the reverse of send order: 3, then 2, then 1,
each with its own payload. -/
def correlationDemoResponses : List RpcResponse :=
  [⟨some 3, some (Json.num 30), none⟩,
   ⟨some 2, some (Json.num 20), none⟩,
   ⟨some 1, some (Json.num 10), none⟩]

/-- Witness for `reader_correlates_by_id`: with ids 1, 2, 3 pending and
responses arriving in order 3, 2, 1, the future of request 1 is
resolved with request 1's own payload, and with nothing else. -/
theorem reader_correlates_by_id_witness :
    (1, FutureVal.ok (Json.num 10)) ∈
      (processAll correlationDemoState correlationDemoResponses).resolved ∧
    (∀ fv', (1, fv') ∈
        (processAll correlationDemoState correlationDemoResponses).resolved →
      fv' = FutureVal.ok (Json.num 10)) :=
  reader_correlates_by_id correlationDemoResponses correlationDemoState
    (by
      intro r hr i hid
      fin_cases hr <;>
        (simp only [correlationDemoResponses] at hid
         injection hid with h
         subst h
         decide))
    (by decide)
    (by
      intro r hr i hid fv h
      exact (List.not_mem_nil _) h)
    ⟨some 1, some (Json.num 10), none⟩
    (by decide) 1 (FutureVal.ok (Json.num 10)) rfl rfl
